import Mathlib

/-!
Verification of the inter-layer transport and addressing core of the
MinNE layered-network simulation (source files `src/layer/app.py` and
`src/layer/net.py`).  Python strings are embedded as `List Char`; the
stateful receive loops are embedded as recursion over the finite list of
arriving datagrams; the transport primitive, the coding module
(`utils.coding`), the constants module (`utils.constant`) and the
configuration/resource lookups (`utils.io`), which are not part of the
two source files, are modelled from the specification.
-/

/-- A Python string, embedded as its list of characters. -/
abbrev PyStr := List Char

/-- The bit character of bit `i` of `n`: the character `1` when the bit is
set, `0` otherwise. -/
def bitChar (n i : Nat) : Char :=
  if n.testBit i then '1' else '0'

/-- The eight bit characters of one byte value, most significant bit
first. -/
def byteToBits (n : Nat) : List Char :=
  [bitChar n 7, bitChar n 6, bitChar n 5, bitChar n 4,
   bitChar n 3, bitChar n 2, bitChar n 1, bitChar n 0]

/-- Modelled from the spec: `string_to_bits` of `utils.coding`, which is
absent from `src`.  Per the bit-sequence conversion contract, the output
sets one character per bit of the byte-level encoding of the text, most
significant bit first within each byte, bytes in original order.  The
byte-level encoding is modelled as one byte per character, for texts
whose characters all have code points below 256 (the representable
texts). -/
def string_to_bits (s : PyStr) : PyStr :=
  s.flatMap (fun c => byteToBits c.toNat)

/-- The byte value described by a list of bit characters, most
significant bit first. -/
def bitsToByte (l : List Char) : Nat :=
  l.foldl (fun a c => 2 * a + (if c = '1' then 1 else 0)) 0

/-- Modelled from the spec: `bits_to_string` of `utils.coding`, which is
absent from `src`.  The exact inverse of `string_to_bits`: each group of
eight bit characters is decoded into one byte, most significant bit
first. -/
def bits_to_string : PyStr → PyStr
  | [] => []
  | b0 :: b1 :: b2 :: b3 :: b4 :: b5 :: b6 :: b7 :: rest =>
      Char.ofNat (bitsToByte [b0, b1, b2, b3, b4, b5, b6, b7]) ::
        bits_to_string rest
  | l => [Char.ofNat (bitsToByte l)]

set_option maxRecDepth 2048 in
theorem bitsToByte_byteToBits (n : Nat) (h : n < 256) :
    bitsToByte (byteToBits n) = n := by
  revert h
  revert n
  decide

theorem byteToBits_length (n : Nat) : (byteToBits n).length = 8 := rfl

theorem bits_to_string_string_to_bits (s : PyStr)
    (h : ∀ c ∈ s, c.toNat < 256) :
    bits_to_string (string_to_bits s) = s := by
  induction s with
  | nil => rfl
  | cons c s ih =>
      have hc : c.toNat < 256 := h c (List.mem_cons_self c s)
      have hs : ∀ x ∈ s, x.toNat < 256 := fun x hx => h x (List.mem_cons_of_mem c hx)
      show bits_to_string (byteToBits c.toNat ++ string_to_bits s) = c :: s
      rw [byteToBits]
      show bits_to_string (bitChar c.toNat 7 :: bitChar c.toNat 6 ::
        bitChar c.toNat 5 :: bitChar c.toNat 4 :: bitChar c.toNat 3 ::
        bitChar c.toNat 2 :: bitChar c.toNat 1 :: bitChar c.toNat 0 ::
        string_to_bits s) = c :: s
      rw [bits_to_string]
      rw [show [bitChar c.toNat 7, bitChar c.toNat 6, bitChar c.toNat 5,
        bitChar c.toNat 4, bitChar c.toNat 3, bitChar c.toNat 2,
        bitChar c.toNat 1, bitChar c.toNat 0] = byteToBits c.toNat from rfl]
      rw [bitsToByte_byteToBits c.toNat hc, Char.ofNat_toNat, ih hs]

theorem string_to_bits_length (s : PyStr) :
    (string_to_bits s).length = 8 * s.length := by
  induction s with
  | nil => rfl
  | cons c s ih =>
      show (byteToBits c.toNat ++ string_to_bits s).length = 8 * (c :: s).length
      rw [List.length_append, byteToBits_length, ih, List.length_cons]
      ring

theorem string_to_bits_chars (s : PyStr) :
    ∀ c ∈ string_to_bits s, c = '0' ∨ c = '1' := by
  intro c hc
  rcases List.mem_flatMap.mp hc with ⟨x, _, hmem⟩
  simp only [byteToBits, bitChar, List.mem_cons, List.not_mem_nil, or_false] at hmem
  rcases hmem with h | h | h | h | h | h | h | h <;>
    (subst h; split <;> simp)

/-- C1: the bit-sequence conversion functions are mutually inverse: for
every text whose characters are all representable in one byte,
`bits_to_string (string_to_bits s) = s`; the output of `string_to_bits`
has length exactly eight times the byte length of the encoding of `s`,
and each of its characters is `0` or `1`. -/
theorem coding_round_trip (s : PyStr) (h : ∀ c ∈ s, c.toNat < 256) :
    bits_to_string (string_to_bits s) = s ∧
      (string_to_bits s).length = 8 * s.length ∧
      ∀ c ∈ string_to_bits s, c = '0' ∨ c = '1' :=
  ⟨bits_to_string_string_to_bits s h, string_to_bits_length s,
    string_to_bits_chars s⟩

theorem coding_round_trip_witness :
    (∀ c ∈ ("hi".toList), c.toNat < 256) ∧
      (bits_to_string (string_to_bits "hi".toList) = "hi".toList ∧
        (string_to_bits "hi".toList).length = 8 * ("hi".toList).length ∧
        ∀ c ∈ string_to_bits "hi".toList, c = '0' ∨ c = '1') :=
  ⟨by decide, coding_round_trip "hi".toList (by decide)⟩

/-! ## Transport model and peer bindings -/

/-- One datagram pending on a layer's endpoint: the text payload and the
address of its sender. -/
structure Datagram where
  payload : PyStr
  sender : PyStr
deriving DecidableEq

/-- Modelled from the spec: the indefinite-timeout receive loop built on
`AbstractLayer._receive` (the transport primitive of `layer/_abstract.py`
is absent from `src`).  Each iteration receives the next pending
datagram; the loop ends when the sender address equals the bound peer
address.  Embedded as recursion over the finite list of pending
datagrams, in arrival order; `none` means the loop is still blocked when
the list runs out. -/
def recvLoop (bound : PyStr) : List Datagram → Option Datagram
  | [] => none
  | d :: rest => if d.sender = bound then some d else recvLoop bound rest

/-- `AppLayer.receive_from_net`: the loop variable `port` starts at
`None`, which differs from every string, so the body runs until a
datagram whose sender is the bound network-layer address arrives, and
that datagram's payload is returned. -/
def receive_from_net (net : PyStr) (pending : List Datagram) : Option PyStr :=
  (recvLoop net pending).map Datagram.payload

/-- `NetLayer.receive_from_app`: the loop variable `port` starts at
`"-1"`; were the bound app address itself `"-1"`, the guard would fail
before the first receive and the unbound `message` would raise a
`NameError` — that crash is embedded as `none`.  Otherwise the loop runs
until a datagram whose sender is the bound app address arrives. -/
def receive_from_app (app : PyStr) (pending : List Datagram) : Option PyStr :=
  if app = "-1".toList then none
  else (recvLoop app pending).map Datagram.payload

theorem recvLoop_sound (bound : PyStr) (pending : List Datagram)
    (d : Datagram) (h : recvLoop bound pending = some d) :
    d.sender = bound ∧ d ∈ pending := by
  induction pending with
  | nil => simp [recvLoop] at h
  | cons x rest ih =>
      rw [recvLoop] at h
      by_cases hx : x.sender = bound
      · simp [hx] at h
        subst h
        exact ⟨hx, List.mem_cons_self x rest⟩
      · simp [hx] at h
        rcases ih h with ⟨h1, h2⟩
        exact ⟨h1, List.mem_cons_of_mem x h2⟩

/-- C2: peer isolation of the App–Net link: whatever the interleaving of
pending datagrams, `receive_from_net` returns a payload only when it was
carried by a datagram whose sender is the bound network-layer address,
and `receive_from_app` only when the sender is the bound app address;
datagrams from any other sender are never returned. -/
theorem peer_isolation (bound : PyStr) (pending : List Datagram) :
    (∀ m, receive_from_net bound pending = some m →
      ∃ d ∈ pending, d.sender = bound ∧ d.payload = m) ∧
    (∀ m, receive_from_app bound pending = some m →
      ∃ d ∈ pending, d.sender = bound ∧ d.payload = m) := by
  constructor
  · intro m hm
    rw [receive_from_net] at hm
    rcases Option.map_eq_some'.mp hm with ⟨d, hd, hp⟩
    rcases recvLoop_sound bound pending d hd with ⟨h1, h2⟩
    exact ⟨d, h2, h1, hp⟩
  · intro m hm
    rw [receive_from_app] at hm
    by_cases happ : bound = "-1".toList
    · simp [happ] at hm
    · simp only [happ, if_false] at hm
      rcases Option.map_eq_some'.mp hm with ⟨d, hd, hp⟩
      rcases recvLoop_sound bound pending d hd with ⟨h1, h2⟩
      exact ⟨d, h2, h1, hp⟩

theorem peer_isolation_witness :
    ∃ d ∈ [Datagram.mk "x".toList "9999".toList,
           Datagram.mk "m".toList "1200".toList],
      d.sender = "1200".toList ∧ d.payload = "m".toList :=
  (peer_isolation "1200".toList
      [Datagram.mk "x".toList "9999".toList,
       Datagram.mk "m".toList "1200".toList]).1
    "m".toList (by decide)

/-! ## Process-wide constants (utils.constant.Network) -/

/-- Modelled from the spec: the default receive timeout
`Network.RECV_TIMEOUT` of `utils.constant` (absent from `src`).  The
spec fixes its role — an environment-level tuning knob — but not its
value; the value chosen here is arbitrary. -/
def Network.RECV_TIMEOUT : Nat := 1

/-- Modelled from the spec: the inter-send pacing interval
`Network.FLOW_INTERVAL` of `utils.constant` (absent from `src`); the
value chosen here is arbitrary. -/
def Network.FLOW_INTERVAL : Nat := 1

/-! ## Net–Phy boundary -/

/-- A datagram arriving on an endpoint at an absolute time (seconds from
the start of the receive call). -/
structure TimedDatagram where
  time : Nat
  payload : PyStr
  sender : PyStr
deriving DecidableEq

/-- Modelled from the spec: `AbstractLayer._receive` with a bounded
timeout (absent from `src`).  Blocks until a datagram arrives or the
timeout elapses: the first arrival (list order is arrival order) within
the window is returned with success `true`; otherwise success is `false`
and the payload is unspecified (embedded as the empty string).  The
primitive itself does no sender filtering. -/
def timedReceive (timeout : Nat) (arrivals : List TimedDatagram) :
    PyStr × PyStr × Bool :=
  match arrivals.find? (fun d => d.time ≤ timeout) with
  | some d => (d.payload, d.sender, true)
  | none => ([], [], false)

/-- `NetLayer.receive_from_phy`: receives with the given timeout
(defaulting to `Network.RECV_TIMEOUT`), converts the received bit
sequence back to text when the receive succeeded, and passes the raw
value through together with success `false` otherwise.  The sender
address reported by the primitive is discarded (`binary, _, success`).
The function is total: no exception path. -/
def receive_from_phy (recv : Nat → PyStr × PyStr × Bool)
    (timeout : Nat := Network.RECV_TIMEOUT) : PyStr × Bool :=
  let r := recv timeout
  (if r.2.2 then bits_to_string r.1 else r.1, r.2.2)

/-- `receive_from_phy` driven by the spec-modelled timed transport. -/
def receive_from_phy_timed (timeout : Nat) (arrivals : List TimedDatagram) :
    PyStr × Bool :=
  receive_from_phy (fun t => timedReceive t arrivals) timeout

/-- C3: on a successful underlying receive the returned payload is
`bits_to_string` of the received bit sequence with success `true`; on
timeout the raw unconverted value is returned with success `false` (and
no exception is raised — the embedding is a total function); omitting
the timeout argument uses the process-wide default
`Network.RECV_TIMEOUT`. -/
theorem receive_from_phy_outcomes (recv : Nat → PyStr × PyStr × Bool)
    (timeout : Nat) :
    ((recv timeout).2.2 = true →
      receive_from_phy recv timeout = (bits_to_string (recv timeout).1, true)) ∧
    ((recv timeout).2.2 = false →
      receive_from_phy recv timeout = ((recv timeout).1, false)) ∧
    receive_from_phy recv = receive_from_phy recv Network.RECV_TIMEOUT := by
  refine ⟨fun hs => ?_, fun hf => ?_, rfl⟩
  · rw [receive_from_phy]
    rw [hs]
    simp
  · rw [receive_from_phy]
    rw [hf]
    simp

/-- A concrete transport stub: one successful receive carrying the bit
sequence of the one-character text `a`. -/
def recvStub : Nat → PyStr × PyStr × Bool :=
  fun _ => (string_to_bits ['a'], "9999".toList, true)

theorem receive_from_phy_outcomes_witness :
    (recvStub 5).2.2 = true ∧
      receive_from_phy recvStub 5 = (bits_to_string (recvStub 5).1, true) :=
  ⟨rfl, (receive_from_phy_outcomes recvStub 5).1 rfl⟩

/-- A single arrival, at time 0, of the bit sequence of the text `a`,
sent from the foreign address 9999. -/
def foreignArrival : List TimedDatagram :=
  [TimedDatagram.mk 0 (string_to_bits ['a']) "9999".toList]

/-- C4 counterexample: `receive_from_phy` does not filter on the sender —
with the physical peer bound at address 1100, a lone datagram from the
foreign address 9999 arriving within the window still yields success
`true`, so success is not confined to datagrams from the Physical-layer
address and timeout is not reported when only foreign datagrams
arrive. -/
theorem receive_from_phy_foreign_sender :
    (∀ d ∈ foreignArrival, d.sender ≠ "1100".toList ∧ d.time ≤ 5) ∧
      (receive_from_phy_timed 5 foreignArrival).2 = true :=
  ⟨by decide, rfl⟩

/-- C4 (amended): `receive_from_phy` with timeout `T` returns success
`false` if no datagram at all arrives within `T`, and when a datagram
does arrive before `T` — from any sender, since the sender address is
discarded — it returns a text payload equal to `bits_to_string` of
exactly what was sent by the first such arrival, with success `true`. -/
theorem receive_from_phy_timed_correct (T : Nat)
    (arrivals : List TimedDatagram) :
    ((∀ d ∈ arrivals, ¬ d.time ≤ T) →
      receive_from_phy_timed T arrivals = ([], false)) ∧
    (∀ d, arrivals.find? (fun d => d.time ≤ T) = some d →
      receive_from_phy_timed T arrivals = (bits_to_string d.payload, true)) := by
  constructor
  · intro hnone
    have hfind : arrivals.find? (fun d => d.time ≤ T) = none := by
      rw [List.find?_eq_none]
      intro x hx
      simpa using hnone x hx
    rw [receive_from_phy_timed, receive_from_phy]
    simp only [timedReceive, hfind]
    simp
  · intro d hd
    rw [receive_from_phy_timed, receive_from_phy]
    simp only [timedReceive, hd]
    simp

theorem receive_from_phy_timed_correct_witness :
    ((∀ d ∈ foreignArrival, ¬ d.time ≤ 5) →
      receive_from_phy_timed 5 foreignArrival = ([], false)) ∧
      (foreignArrival.find? (fun d => d.time ≤ 5) =
          some (TimedDatagram.mk 0 (string_to_bits ['a']) "9999".toList) ∧
        receive_from_phy_timed 5 foreignArrival =
          (bits_to_string (string_to_bits ['a']), true)) :=
  ⟨(receive_from_phy_timed_correct 5 foreignArrival).1,
    by decide,
    (receive_from_phy_timed_correct 5 foreignArrival).2
      (TimedDatagram.mk 0 (string_to_bits ['a']) "9999".toList) (by decide)⟩

/-- An effect performed by a layer on its environment, in program
order. -/
inductive Effect where
  | sleep (seconds : Nat)
  | send (payload : PyStr) (dest : PyStr)
deriving DecidableEq

/-- `NetLayer.send_to_phy`: sleeps for the process-wide flow interval,
then sends the bit-sequence conversion of the payload to the
physical-layer address.  Embedded as the ordered list of its transport
effects. -/
def send_to_phy (phy : PyStr) (binary : PyStr) : List Effect :=
  [Effect.sleep Network.FLOW_INTERVAL, Effect.send (string_to_bits binary) phy]

/-- C6: every `send_to_phy` call transmits `string_to_bits` of its
payload to the physical-layer address, preceded by a pacing sleep of the
fixed process-wide interval; the pacing step is identical for payloads
of every size. -/
theorem send_to_phy_paced (phy p q : PyStr) :
    send_to_phy phy p =
        [Effect.sleep Network.FLOW_INTERVAL,
         Effect.send (string_to_bits p) phy] ∧
      (send_to_phy phy p).head? = (send_to_phy phy q).head? :=
  ⟨rfl, rfl⟩

/-! ## Device addressing -/

/-- The digit character of a device number `d` (so `digitChar 2` is the
character 2). -/
def digitChar (d : Nat) : Char := Char.ofNat (48 + d)

/-- The remote-address formula of `AppLayer._get_dst_from_user`
(src/layer/app.py line 125): the f-string `1{device_id}300`. -/
def compute_remote_app_address (device_id : PyStr) : PyStr :=
  '1' :: device_id ++ "300".toList

/-- Modelled from the spec: the app entry of the device configuration
table returned by `utils.io.get_device_map` (absent from `src`).  Spec
§4.2 and §8: the application-layer address of a device follows the fixed
numeric pattern `concat("1", deviceId, "300")`, parameterized only by
the device identifier. -/
def device_map_app (device_id : PyStr) : PyStr :=
  '1' :: device_id ++ "300".toList

/-- C5: for every pair of valid device identifiers `d1 ≠ d2` in 1–9, the
remote application-layer address computed at `d1` for destination `d2`
is `concat("1", d2, "300")` — for device 1 sending to device 2 it is
`12300` — and it equals the app address device `d2` resolves for itself
through the configuration table. -/
theorem remote_app_address_consistent (d1 d2 : Nat)
    (h1 : 1 ≤ d1 ∧ d1 ≤ 9) (h2 : 1 ≤ d2 ∧ d2 ≤ 9) (hne : d1 ≠ d2) :
    compute_remote_app_address [digitChar d2] =
        '1' :: [digitChar d2] ++ "300".toList ∧
      compute_remote_app_address [digitChar d2] = device_map_app [digitChar d2] ∧
      compute_remote_app_address [digitChar 2] = "12300".toList :=
  ⟨rfl, rfl, rfl⟩

theorem remote_app_address_consistent_witness :
    (1 ≤ 1 ∧ 1 ≤ 9) ∧ (1 ≤ 2 ∧ 2 ≤ 9) ∧ 1 ≠ 2 ∧
      (compute_remote_app_address [digitChar 2] =
          '1' :: [digitChar 2] ++ "300".toList ∧
        compute_remote_app_address [digitChar 2] = device_map_app [digitChar 2] ∧
        compute_remote_app_address [digitChar 2] = "12300".toList) :=
  ⟨by decide, by decide, by decide,
    remote_app_address_consistent 1 2 (by decide) (by decide) (by decide)⟩

/-! ## Interactive input validation (AppLayer) -/

/-- The test `re.fullmatch(r"[1-9]", s)`: the whole string is a single
character between 1 and 9. -/
def isDigit19 (s : PyStr) : Bool :=
  match s with
  | [c] => decide ('1' ≤ c) && decide (c ≤ '9')
  | _ => false

/-- `AppLayer._get_dst_from_user`: re-prompts until the input is a
single digit 1–9 (first check) other than the local device identifier
(second check), then returns the remote-address formula applied to it.
Embedded over the finite list of keyboard inputs; `none` means no
acceptable value was ever typed. -/
def get_dst_from_user (device_id : PyStr) : List PyStr → Option PyStr
  | [] => none
  | input :: rest =>
      if isDigit19 input = false then get_dst_from_user device_id rest
      else if input = device_id then get_dst_from_user device_id rest
      else some (compute_remote_app_address input)

theorem get_dst_sound (device_id : PyStr) (inputs : List PyStr) (r : PyStr)
    (h : get_dst_from_user device_id inputs = some r) :
    ∃ input ∈ inputs, isDigit19 input = true ∧ input ≠ device_id ∧
      r = compute_remote_app_address input := by
  induction inputs with
  | nil => simp [get_dst_from_user] at h
  | cons x rest ih =>
      rw [get_dst_from_user] at h
      by_cases hx : isDigit19 x = false
      · rw [if_pos hx] at h
        rcases ih h with ⟨i, hi, hrest⟩
        exact ⟨i, List.mem_cons_of_mem x hi, hrest⟩
      · rw [if_neg hx] at h
        have hdig : isDigit19 x = true := by
          revert hx
          cases isDigit19 x <;> simp
        by_cases hself : x = device_id
        · rw [if_pos hself] at h
          rcases ih h with ⟨i, hi, hrest⟩
          exact ⟨i, List.mem_cons_of_mem x hi, hrest⟩
        · rw [if_neg hself] at h
          exact ⟨x, List.mem_cons_self x rest, hdig, hself,
            (Option.some.inj h).symm⟩

/-- C7: the destination prompt returns only for inputs that are a single
digit 1–9 differing from the local device identifier; any other input is
skipped (the loop re-prompts); an acceptable input is answered at once
with the remote-address formula; and the returned address never equals
the address the formula gives for the local device itself. -/
theorem dst_prompt (device_id : PyStr) :
    (∀ inputs r, get_dst_from_user device_id inputs = some r →
      ∃ input ∈ inputs, isDigit19 input = true ∧ input ≠ device_id ∧
        r = compute_remote_app_address input) ∧
    (∀ input rest, isDigit19 input = false ∨ input = device_id →
      get_dst_from_user device_id (input :: rest) =
        get_dst_from_user device_id rest) ∧
    (∀ input rest, isDigit19 input = true → input ≠ device_id →
      get_dst_from_user device_id (input :: rest) =
        some (compute_remote_app_address input)) ∧
    (∀ inputs r, get_dst_from_user device_id inputs = some r →
      r ≠ compute_remote_app_address device_id) := by
  refine ⟨get_dst_sound device_id, ?_, ?_, ?_⟩
  · intro input rest hbad
    rw [get_dst_from_user]
    rcases hbad with hb | hb
    · simp [hb]
    · subst hb
      by_cases hd : isDigit19 input = false <;> simp [hd]
  · intro input rest hdig hne
    rw [get_dst_from_user]
    simp [hdig, hne]
  · intro inputs r h heq
    rcases get_dst_sound device_id inputs r h with ⟨i, _, _, hi_ne, hr⟩
    rw [hr, compute_remote_app_address, compute_remote_app_address] at heq
    have : i ++ "300".toList = device_id ++ "300".toList :=
      List.cons_injective heq
    exact hi_ne (List.append_cancel_right this)

theorem dst_prompt_witness :
    isDigit19 ['2'] = true ∧ (['2'] : PyStr) ≠ ['1'] ∧
      get_dst_from_user ['1'] [['2']] =
        some (compute_remote_app_address ['2']) :=
  ⟨by decide, by decide, (dst_prompt ['1']).2.2.1 ['2'] [] (by decide) (by decide)⟩

/-- Modelled from the spec: `Mode.LIST` of `utils.constant` (absent from
`src`): the four enumerated mode codes offered by the menu (1 Receive,
2 Unicast, 3 Broadcast, 4 Quit). -/
def Mode.LIST : List PyStr := [['1'], ['2'], ['3'], ['4']]

/-- Modelled from the spec: `MessageType.LIST` of `utils.constant`
(absent from `src`): the two enumerated message-kind codes (1 Text,
2 File). -/
def MessageType.LIST : List PyStr := [['1'], ['2']]

/-- `AppLayer._get_mode_from_user`: returns the first input that is one
of the four mode codes, re-prompting otherwise. -/
def get_mode_from_user : List PyStr → Option PyStr
  | [] => none
  | input :: rest =>
      if input ∈ Mode.LIST then some input else get_mode_from_user rest

/-- `AppLayer._get_msgtype_from_user`: returns the first input that is
one of the two message-kind codes, re-prompting otherwise. -/
def get_msgtype_from_user : List PyStr → Option PyStr
  | [] => none
  | input :: rest =>
      if input ∈ MessageType.LIST then some input
      else get_msgtype_from_user rest

/-- `AppLayer._get_text_from_user`: returns the first non-empty input,
re-prompting on the empty string. -/
def get_text_from_user : List PyStr → Option PyStr
  | [] => none
  | input :: rest =>
      if input ≠ [] then some input else get_text_from_user rest

/-- `AppLayer._get_file_from_user`: resolves each typed name through the
resource-lookup collaborator `search_rsc` (of `utils.io`, absent from
`src`, passed here as a parameter) and returns the first resolved path;
a failed lookup re-prompts. -/
def get_file_from_user (search_rsc : PyStr → Option PyStr) :
    List PyStr → Option PyStr
  | [] => none
  | input :: rest =>
      match search_rsc input with
      | some filepath => some filepath
      | none => get_file_from_user search_rsc rest

theorem get_mode_sound (inputs : List PyStr) (r : PyStr)
    (h : get_mode_from_user inputs = some r) : r ∈ Mode.LIST := by
  induction inputs with
  | nil => simp [get_mode_from_user] at h
  | cons x rest ih =>
      rw [get_mode_from_user] at h
      by_cases hx : x ∈ Mode.LIST
      · simp only [hx, if_true, Option.some.injEq] at h
        exact h ▸ hx
      · simp only [hx, if_false] at h
        exact ih h

theorem get_msgtype_sound (inputs : List PyStr) (r : PyStr)
    (h : get_msgtype_from_user inputs = some r) : r ∈ MessageType.LIST := by
  induction inputs with
  | nil => simp [get_msgtype_from_user] at h
  | cons x rest ih =>
      rw [get_msgtype_from_user] at h
      by_cases hx : x ∈ MessageType.LIST
      · simp only [hx, if_true, Option.some.injEq] at h
        exact h ▸ hx
      · simp only [hx, if_false] at h
        exact ih h

theorem get_text_sound (inputs : List PyStr) (r : PyStr)
    (h : get_text_from_user inputs = some r) : r ≠ [] := by
  induction inputs with
  | nil => simp [get_text_from_user] at h
  | cons x rest ih =>
      rw [get_text_from_user] at h
      by_cases hx : x = []
      · simp only [hx] at h
        simpa using ih (by simpa using h)
      · simp only [ne_eq, hx, not_false_eq_true, if_true,
          Option.some.injEq] at h
        exact h ▸ hx

theorem get_file_sound (search_rsc : PyStr → Option PyStr)
    (inputs : List PyStr) (r : PyStr)
    (h : get_file_from_user search_rsc inputs = some r) :
    ∃ name ∈ inputs, search_rsc name = some r := by
  induction inputs with
  | nil => simp [get_file_from_user] at h
  | cons x rest ih =>
      rw [get_file_from_user] at h
      cases hx : search_rsc x with
      | some p =>
          rw [hx] at h
          exact ⟨x, List.mem_cons_self x rest, hx.trans h⟩
      | none =>
          rw [hx] at h
          rcases ih h with ⟨n, hn, hr⟩
          exact ⟨n, List.mem_cons_of_mem x hn, hr⟩

/-- C8: every interactive input validator returns only a syntactically
valid value and recovers from invalid input locally by skipping to the
next prompt, never by raising: the mode validator returns only one of
the four mode codes, the message-kind validator only one of its two
codes, the free-text validator only a non-empty string, and the file
validator only a value the resource lookup resolved. -/
theorem input_validators_sound :
    (∀ inputs r, get_mode_from_user inputs = some r → r ∈ Mode.LIST) ∧
    (∀ input rest, input ∉ Mode.LIST →
      get_mode_from_user (input :: rest) = get_mode_from_user rest) ∧
    (∀ inputs r, get_msgtype_from_user inputs = some r →
      r ∈ MessageType.LIST) ∧
    (∀ input rest, input ∉ MessageType.LIST →
      get_msgtype_from_user (input :: rest) = get_msgtype_from_user rest) ∧
    (∀ inputs r, get_text_from_user inputs = some r → r ≠ []) ∧
    (∀ rest, get_text_from_user ([] :: rest) = get_text_from_user rest) ∧
    (∀ rsc inputs r, get_file_from_user rsc inputs = some r →
      ∃ name ∈ inputs, rsc name = some r) ∧
    (∀ rsc input rest, rsc input = none →
      get_file_from_user rsc (input :: rest) = get_file_from_user rsc rest) := by
  refine ⟨get_mode_sound, ?_, get_msgtype_sound, ?_, get_text_sound, ?_,
    get_file_sound, ?_⟩
  · intro input rest hbad
    rw [get_mode_from_user, if_neg hbad]
  · intro input rest hbad
    rw [get_msgtype_from_user, if_neg hbad]
  · intro rest
    rw [get_text_from_user]
    simp
  · intro rsc input rest hbad
    rw [get_file_from_user, hbad]

theorem input_validators_sound_witness :
    get_mode_from_user [['x'], ['3']] = some ['3'] ∧ ['3'] ∈ Mode.LIST :=
  ⟨by decide, input_validators_sound.1 [['x'], ['3']] ['3'] (by decide)⟩

/-- Modelled from the spec: `utils.constant.InputType` (absent from
`src`): the five documented input categories; `other` stands for any
value outside the enumeration, which Python's dynamic typing lets a
caller pass. -/
inductive InputType where
  | MODE
  | DST
  | MSGTYPE
  | TEXT
  | FILE
  | other (tag : Nat)
deriving DecidableEq

/-- `AppLayer.receive_from_user`: dispatches on the input category; any
category outside the five documented ones falls to the final `else` and
returns the empty string at once, consulting neither the keyboard nor
any collaborator. -/
def receive_from_user (device_id : PyStr) (search_rsc : PyStr → Option PyStr)
    (input_type : InputType) (inputs : List PyStr) : Option PyStr :=
  match input_type with
  | .MODE => get_mode_from_user inputs
  | .DST => get_dst_from_user device_id inputs
  | .MSGTYPE => get_msgtype_from_user inputs
  | .TEXT => get_text_from_user inputs
  | .FILE => get_file_from_user search_rsc inputs
  | .other _ => some []

/-- C9: called with an input category that is none of the five
documented ones, `receive_from_user` returns the empty string at once —
for every input stream, so nothing is read from the user — and raises no
error. -/
theorem receive_from_user_unknown (t : InputType)
    (h : t ≠ .MODE ∧ t ≠ .DST ∧ t ≠ .MSGTYPE ∧ t ≠ .TEXT ∧ t ≠ .FILE) :
    ∀ device_id search_rsc inputs,
      receive_from_user device_id search_rsc t inputs = some [] := by
  intro device_id search_rsc inputs
  cases t with
  | MODE => exact absurd rfl h.1
  | DST => exact absurd rfl h.2.1
  | MSGTYPE => exact absurd rfl h.2.2.1
  | TEXT => exact absurd rfl h.2.2.2.1
  | FILE => exact absurd rfl h.2.2.2.2
  | other tag => rfl

theorem receive_from_user_unknown_witness :
    (InputType.other 0 ≠ .MODE ∧ InputType.other 0 ≠ .DST ∧
        InputType.other 0 ≠ .MSGTYPE ∧ InputType.other 0 ≠ .TEXT ∧
        InputType.other 0 ≠ .FILE) ∧
      receive_from_user ['1'] (fun _ => none) (InputType.other 0)
        [['z']] = some [] :=
  ⟨by decide,
    receive_from_user_unknown (InputType.other 0) (by decide)
      ['1'] (fun _ => none) [['z']]⟩

/-- C10: whenever the file validator returns, its value is the resolved
path produced by the resource lookup for some entered name — the lookup
output, not the typed name — and in particular a value on which the
lookup succeeded (never the absence signal); a name whose lookup
succeeds is answered at once with that resolved path. -/
theorem file_prompt_resolved (search_rsc : PyStr → Option PyStr) :
    (∀ inputs r, get_file_from_user search_rsc inputs = some r →
      ∃ name ∈ inputs, search_rsc name = some r) ∧
    (∀ name rest p, search_rsc name = some p →
      get_file_from_user search_rsc (name :: rest) = some p) := by
  refine ⟨get_file_sound search_rsc, ?_⟩
  intro name rest p hp
  rw [get_file_from_user, hp]

/-- A concrete resource lookup: `foo.png` resolves to
`/rsc/foo.png`, everything else is absent. -/
def rscStub : PyStr → Option PyStr :=
  fun name =>
    if name = "foo.png".toList then some "/rsc/foo.png".toList else none

theorem file_prompt_resolved_witness :
    rscStub "foo.png".toList = some "/rsc/foo.png".toList ∧
      get_file_from_user rscStub ["foo.png".toList] =
        some "/rsc/foo.png".toList :=
  ⟨by decide,
    (file_prompt_resolved rscStub).2 "foo.png".toList [] "/rsc/foo.png".toList
      (by decide)⟩
